import Mathlib

/-!
Verification development for Bfabric.py (Brocade switch zoning command
generator).  The program's core pipeline is embedded shallowly: strings
are lists of characters, the mutable `all_fab` list is threaded through
the stages explicitly, and the six output files are structured command
lists.  Definitions mirror the source; spec-side characterisations used
for refinement statements are clearly marked.
-/

namespace Bfabric

/-- Character list of a string literal (all program strings are modelled
as `List Char`). -/
def lc (s : String) : List Char := s.toList

/-- WWID rejection kinds, one per message printed by the source's
normalizers (length, separator placement, non-hex character). -/
inductive WwidErr where
  | badLength
  | badSeparator
  | badHex
deriving DecidableEq

/-- Python slice `w[a:b]` on a character list. -/
def slice (w : List Char) (a b : Nat) : List Char := (w.drop a).take (b - a)

/-- The hex test of `strictwwid`'s loop: a character is rejected iff
`(c < '0' or c > 'f') or ('9' < c < 'a')`; this accepts exactly the
characters 0-9 and lowercase a-f. -/
def strictHexOk (c : Char) : Bool :=
  !((decide (c < '0') || decide ('f' < c)) || (decide ('9' < c) && decide (c < 'a')))

/-- `strictwwid` (Bfabric.py lines 49-67): length must be 23; the
separator test rejects only when none of the seven expected positions
holds a colon (the source chains the seven comparisons with `and`);
then the 16 non-separator characters must all pass the hex test.
Returns the input unchanged on success. -/
def strictwwid (wwid : List Char) : Except WwidErr (List Char) :=
  if wwid.length ≠ 23 then .error .badLength
  else if slice wwid 2 3 ≠ [':'] ∧ slice wwid 5 6 ≠ [':'] ∧ slice wwid 8 9 ≠ [':'] ∧
          slice wwid 11 12 ≠ [':'] ∧ slice wwid 14 15 ≠ [':'] ∧ slice wwid 17 18 ≠ [':'] ∧
          slice wwid 20 21 ≠ [':'] then .error .badSeparator
  else
    let hexwid := slice wwid 0 2 ++ slice wwid 3 5 ++ slice wwid 6 8 ++ slice wwid 9 11 ++
                  slice wwid 12 14 ++ slice wwid 15 17 ++ slice wwid 18 20 ++ slice wwid 21 23
    if hexwid.all strictHexOk then .ok wwid else .error .badHex

/-- The hex test of `loosewwid`'s loop (after lowercasing):
`('0' <= c <= '9') or ('a' <= c <= 'f')`. -/
def looseHexOk (c : Char) : Bool :=
  (decide ('0' ≤ c) && decide (c ≤ '9')) || (decide ('a' ≤ c) && decide (c ≤ 'f'))

/-- The Brocade rendering performed by `loosewwid` (lines 99-106):
eight two-character slices of the collected hex string joined by
colons. -/
def brocadefmt (h : List Char) : List Char :=
  slice h 0 2 ++ ':' :: slice h 2 4 ++ ':' :: slice h 4 6 ++ ':' :: slice h 6 8 ++
  ':' :: slice h 8 10 ++ ':' :: slice h 10 12 ++ ':' :: slice h 12 14 ++ ':' :: slice h 14 16

/-- `loosewwid` (Bfabric.py lines 78-107): lowercase every character,
keep the hex ones, require exactly 16, and render in Brocade format. -/
def loosewwid (wwid : List Char) : Except WwidErr (List Char) :=
  let hexstring := (wwid.map Char.toLower).filter looseHexOk
  if hexstring.length ≠ 16 then .error .badLength
  else .ok (brocadefmt hexstring)

/-- One entry of the `all_fab` list:
`[node, primaryif, subif, fabric, initgt, wwpn]`.  Fields hold the
values as read (stripped, fabric/initgt uppercased, wwpn lowercased by
the reader). -/
structure Row where
  node : List Char
  primaryif : List Char
  subif : List Char
  fabric : List Char
  initgt : List Char
  wwpn : List Char
deriving DecidableEq

/-- `alias_format` (lines 116-124): `ali_<node>`, then `_<primaryif>`
and `_<subif>` when non-empty, then `_F<fabric>`. -/
def alias_format (r : Row) : List Char :=
  let a1 := lc (r"ali_") ++ r.node
  let a2 := if r.primaryif ≠ [] then a1 ++ '_' :: r.primaryif else a1
  let a3 := if r.subif ≠ [] then a2 ++ '_' :: r.subif else a2
  a3 ++ lc (r"_F") ++ r.fabric

/-- Validation errors, one constructor per reporting site of the
source; names follow the spec's taxonomy.  The alternation warning
carries the previously seen row (the source's `last_devrow`, initially
not a row) and the current row. -/
inductive ValidationError where
  | invalidIdentifier (wwpn : List Char) (kind : WwidErr)
  | invalidRole (wwpn : List Char)
  | invalidFabricSide (wwpn : List Char)
  | duplicateIdentifier (wwpn : List Char)
  | duplicateName (node primaryif subif : List Char)
  | fabricAlternationWarning (prev : Option Row) (cur : Row)
deriving DecidableEq

/-- Run configuration: `strict` is the S/L answer (true = Strict),
`cabchk` the Y/N answer enabling the alternation check. -/
structure Config where
  strict : Bool
  cabchk : Bool
deriving DecidableEq

/-- Per-row validation (lines 299-333): identifier first, then role,
then fabric side; the row's first failure is its error.  In loose mode
the source rebinds the local `wwpn` to the normalized value (used in
later messages) but never stores it back into the row. -/
def rowError (strict : Bool) (r : Row) : Option ValidationError :=
  match (if strict then strictwwid r.wwpn else loosewwid r.wwpn) with
  | .error k => some (.invalidIdentifier r.wwpn k)
  | .ok w =>
    if r.initgt ≠ lc (r"I") ∧ r.initgt ≠ lc (r"T") then some (.invalidRole w)
    else if r.fabric ≠ lc (r"A") ∧ r.fabric ≠ lc (r"B") then some (.invalidFabricSide w)
    else none

/-- Lexicographic strict order on character lists (Python string `<`). -/
def strLt : List Char → List Char → Bool
  | [], [] => false
  | [], _ :: _ => true
  | _ :: _, [] => false
  | a :: as, b :: bs =>
    if a < b then true else if b < a then false else strLt as bs

/-- Python string `<=`: not `b < a`. -/
def strLe (a b : List Char) : Bool := !(strLt b a)

/-- Stable insertion of `x` into a sorted list: `x` is placed before
the first element it is `le`-below-or-equal to. -/
def sIns (le : α → α → Bool) (x : α) : List α → List α
  | [] => [x]
  | y :: ys => if le x y then x :: y :: ys else y :: sIns le x ys

/-- Stable insertion sort.  Python's `list.sort` is a stable ascending
sort, and a stable sort is uniquely determined by the key order, so
this models it exactly. -/
def sSort (le : α → α → Bool) : List α → List α
  | [] => []
  | x :: xs => sIns le x (sSort le xs)

/-- Sort key of section 2a (line 339): the wwpn string. -/
def sort_WWPN (r : Row) : List Char := r.wwpn

/-- Python `"\x7b:<10\x7d".format(s)`: left-justify to width 10 with
trailing spaces. -/
def pad10 (s : List Char) : List Char := s ++ List.replicate (10 - s.length) ' '

/-- Sort key of section 2b (lines 360-363): the three name columns
left-justified to 10 characters, followed by the wwpn. -/
def sort_cabkeys (r : Row) : List Char :=
  pad10 r.node ++ pad10 r.primaryif ++ pad10 r.subif ++ r.wwpn

/-- Sort key for alias emission (line 423): plain concatenation of
node, primary and secondary interface names. -/
def sort_ALIif (r : Row) : List Char := r.node ++ r.primaryif ++ r.subif

/-- Sort key before zoning (line 459): initiator/target indicator
followed by the three name columns, concatenated. -/
def sort_ITif (r : Row) : List Char := r.initgt ++ r.node ++ r.primaryif ++ r.subif

/-- `list.sort(key=k)` with string keys. -/
def pySort (k : Row → List Char) (l : List Row) : List Row :=
  sSort (fun a b => strLe (k a) (k b)) l

/-- Duplicate-wwpn scan (lines 343-351) over the wwpn-sorted list: a
row whose wwpn equals the previous row's is reported; the initial
comparison value is the empty string. -/
def dupWwpnErrors (rows : List Row) : List ValidationError :=
  (rows.foldl
    (fun (st : List Char × List ValidationError) r =>
      if r.wwpn ≠ st.1 then (r.wwpn, st.2)
      else (st.1, st.2 ++ [.duplicateIdentifier r.wwpn]))
    ([], [])).2

/-- Duplicate-name scan (lines 369-386) over the cable-key-sorted
list: a row whose (node, primaryif, subif) equals the previous row's
triple is reported; the initial comparison values are single spaces. -/
def dupNameErrors (rows : List Row) : List ValidationError :=
  (rows.foldl
    (fun (st : (List Char × List Char × List Char) × List ValidationError) r =>
      let errs := if r.node = st.1.1 ∧ r.primaryif = st.1.2.1 ∧ r.subif = st.1.2.2
        then st.2 ++ [.duplicateName r.node r.primaryif r.subif] else st.2
      ((r.node, r.primaryif, r.subif), errs))
    (([' '], [' '], [' ']), [])).2

/-- The flag initialised as `dupname_error = False` at line 372.  The
duplicate-name loop assigns a differently spelled variable
(`dupnam_error`, line 383), so this flag is never set to true. -/
def dupname_error : Bool := false

/-- Fabric-alternation scan (lines 392-404) over the cable-key-sorted
list: a row whose fabric indicator equals the previous row's is
reported together with the previous row; the initial comparison value
is a single space. -/
def cableErrors (rows : List Row) : List ValidationError :=
  (rows.foldl
    (fun (st : (List Char × Option Row) × List ValidationError) r =>
      let errs := if r.fabric = st.1.1
        then st.2 ++ [.fabricAlternationWarning st.1.2 r] else st.2
      ((r.fabric, some r), errs))
    (([' '], none), [])).2

/-- The list after the section-2a sort on wwpn. -/
def afterWwpnSort (rows : List Row) : List Row := pySort sort_WWPN rows

/-- The list after the section-2b re-sort on the cable keys (applied to
the wwpn-sorted list, as the source mutates `all_fab` in place). -/
def afterCabSort (rows : List Row) : List Row := pySort sort_cabkeys (afterWwpnSort rows)

/-- All validation errors of a run, in reporting order: per-row errors,
duplicate wwpns, duplicate names, then (when enabled and the
`dupname_error` flag is unset — which it always is, see its
definition) the alternation warnings. -/
def validationErrors (cfg : Config) (all_fab : List Row) : List ValidationError :=
  let perRow := all_fab.filterMap (rowError cfg.strict)
  let dupW := dupWwpnErrors (afterWwpnSort all_fab)
  let cab := afterCabSort all_fab
  let dupN := dupNameErrors cab
  let cable := if cfg.cabchk && !dupname_error then cableErrors cab else []
  perRow ++ dupW ++ dupN ++ cable

/-- One `aliCreate "<name>", "<id>"` line: the alias name and the
identifier written, which is the row's stored wwpn field
(`devrow[5]`, line 439). -/
structure AliasCmd where
  name : List Char
  wwid : List Char
deriving DecidableEq

/-- Alias emission (lines 436-445): one command per row of the
alias-sorted list, routed to fabric A's file when the fabric indicator
is "A" and to fabric B's file otherwise. -/
def aliasCmds (rows : List Row) : List AliasCmd × List AliasCmd :=
  rows.foldl
    (fun (st : List AliasCmd × List AliasCmd) r =>
      let c : AliasCmd := ⟨alias_format r, r.wwpn⟩
      if r.fabric = lc (r"A") then (st.1 ++ [c], st.2) else (st.1, st.2 ++ [c]))
    ([], [])

/-- A zone-file command line. -/
inductive ZoneCmd where
  | zoneCreate (zone ali : List Char)
  | zoneAdd (zone ali : List Char)
deriving DecidableEq

/-- A cfg-file command line: `cfgCreate`/`cfgAdd` with the zone name.
The configuration name argument is a run-wide constant derived from
the date (line 505) and is the same on every line, so it is not
carried here. -/
inductive CfgCmd where
  | cfgCreate (zone : List Char)
  | cfgAdd (zone : List Char)
deriving DecidableEq

/-- Zone name (line 528): `zon_<inode>_<iprime>_<tnode>`. -/
def zonName (inode iprime tnode : List Char) : List Char :=
  lc (r"zon_") ++ inode ++ '_' :: iprime ++ '_' :: tnode

/-- State of the zoning loop (lines 507-570): the last
(initiator node, initiator primary i/f, target node) triple — a single
set of variables shared by both fabrics — the per-fabric cfg counters,
the zone commands in emission order tagged with their fabric file
(true = fabric A), and the two cfg files. -/
structure ZoneState where
  lastIni : Option (List Char × List Char × List Char)
  cfgaCount : Nat
  cfgbCount : Nat
  events : List (Bool × ZoneCmd)
  afabcfg : List CfgCmd
  bfabcfg : List CfgCmd
deriving DecidableEq

def initZoneState : ZoneState := ⟨none, 0, 0, [], [], []⟩

/-- One iteration of the nested zoning loop for the pair
(initiator row, target row) (lines 516-570): skip cross-fabric pairs;
otherwise emit `zoneAdd` when the (inode, iprime, tnode) triple equals
the remembered one, else `zoneCreate` + `zoneAdd` plus a cfg entry
(`cfgCreate` for the first one of a fabric, `cfgAdd` after), and
remember the triple. -/
def zoneStep (st : ZoneState) (p : Row × Row) : ZoneState :=
  let inirow := p.1
  let tgtrow := p.2
  if inirow.fabric ≠ tgtrow.fabric then st
  else
    let inode := inirow.node
    let iprime := inirow.primaryif
    let initali := alias_format inirow
    let tnode := tgtrow.node
    let zoname := zonName inode iprime tnode
    let zonali := alias_format tgtrow
    let isA := inirow.fabric = lc (r"A")
    if st.lastIni = some (inode, iprime, tnode) then
      { st with
        lastIni := some (inode, iprime, tnode)
        events := st.events ++ [(decide isA, .zoneAdd zoname zonali)] }
    else if isA then
      { st with
        lastIni := some (inode, iprime, tnode)
        events := st.events ++
          [(true, .zoneCreate zoname initali), (true, .zoneAdd zoname zonali)]
        cfgaCount := st.cfgaCount + 1
        afabcfg := st.afabcfg ++
          [if st.cfgaCount + 1 = 1 then .cfgCreate zoname else .cfgAdd zoname] }
    else
      { st with
        lastIni := some (inode, iprime, tnode)
        events := st.events ++
          [(false, .zoneCreate zoname initali), (false, .zoneAdd zoname zonali)]
        cfgbCount := st.cfgbCount + 1
        bfabcfg := st.bfabcfg ++
          [if st.cfgbCount + 1 = 1 then .cfgCreate zoname else .cfgAdd zoname] }

/-- The pairs visited by the nested loop: outer over initiators, inner
over targets. -/
def zonePairs (ini tgt : List Row) : List (Row × Row) :=
  ini.flatMap (fun i => tgt.map (fun t => (i, t)))

/-- The zoning loop over the split lists. -/
def zonePlan (ini tgt : List Row) : ZoneState :=
  (zonePairs ini tgt).foldl zoneStep initZoneState

/-- The initiator partition (lines 468-472): rows whose indicator is
"I", in list order. -/
def INI_list (rows : List Row) : List Row := rows.filter (fun r => r.initgt = lc (r"I"))

/-- The target partition: every other row, in list order. -/
def TGT_list (rows : List Row) : List Row := rows.filter (fun r => r.initgt ≠ lc (r"I"))

/-- Fabric A's zone command stream: the commands written to
`Afab_zon.txt`, in order. -/
def aStream (evs : List (Bool × ZoneCmd)) : List ZoneCmd :=
  (evs.filter (fun e => e.1)).map (fun e => e.2)

/-- Fabric B's zone command stream. -/
def bStream (evs : List (Bool × ZoneCmd)) : List ZoneCmd :=
  (evs.filter (fun e => !e.1)).map (fun e => e.2)

/-- The six output command files (headers and the fixed
cfgClear/cfgDisable/cfgSave framing omitted: they carry no data). -/
structure Files where
  afabali : List AliasCmd
  bfabali : List AliasCmd
  afabzon : List ZoneCmd
  bfabzon : List ZoneCmd
  afabcfg : List CfgCmd
  bfabcfg : List CfgCmd
deriving DecidableEq

/-- Result of a run: the process exit status and the files written
(none when validation fails: the source calls `exit(1)` at line 417
before any output file is opened). -/
structure RunResult where
  exitCode : Nat
  files : Option Files
deriving DecidableEq

/-- The whole pipeline after reading, on the `all_fab` list: validate;
on any error exit 1 with no output; otherwise sort for aliases, emit
the alias files, re-sort for zoning, split, run the zoning loop and
emit the zone and cfg files, exiting 0. -/
def run (cfg : Config) (all_fab : List Row) : RunResult :=
  if validationErrors cfg all_fab ≠ [] then ⟨1, none⟩
  else
    let sortedAli := pySort sort_ALIif (afterCabSort all_fab)
    let ali := aliasCmds sortedAli
    let sortedIT := pySort sort_ITif sortedAli
    let st := zonePlan (INI_list sortedIT) (TGT_list sortedIT)
    ⟨0, some ⟨ali.1, ali.2, aStream st.events, bStream st.events, st.afabcfg, st.bfabcfg⟩⟩

/-!
Spec-side characterisations, written from the specification's wording
and compared with the source-derived definitions in the theorems below.
-/

/-- Spec-side (§4.1 Loose): the sequence of hex digits of a string,
case-folded, everything else discarded. -/
def specHexSeq (w : List Char) : List Char :=
  w.filterMap (fun c => if looseHexOk c.toLower then some c.toLower else none)

/-- Spec-side: re-punctuate a digit sequence into colon-separated byte
pairs. -/
def specPairs : List Char → List Char
  | [] => []
  | [a] => [a]
  | [a, b] => [a, b]
  | a :: b :: c :: rest => a :: b :: ':' :: specPairs (c :: rest)

/-- Spec-side (claim C9): component-wise lexicographic order on the
triple (node, primaryInterface, secondaryInterface). -/
@[reducible] def tupLe3 (r1 r2 : Row) : Prop :=
  strLt r1.node r2.node = true ∨
    (r1.node = r2.node ∧
      (strLt r1.primaryif r2.primaryif = true ∨
        (r1.primaryif = r2.primaryif ∧ strLe r1.subif r2.subif = true)))

/-- Spec-side (claim C9): component-wise lexicographic order on the
tuple (role, node, primaryInterface, secondaryInterface). -/
@[reducible] def tupLe4 (r1 r2 : Row) : Prop :=
  strLt r1.initgt r2.initgt = true ∨ (r1.initgt = r2.initgt ∧ tupLe3 r1 r2)

/-- Zones with a `zoneCreate` command in a stream. -/
def createsOf (l : List ZoneCmd) : List (List Char) :=
  l.filterMap (fun c => match c with | .zoneCreate z _ => some z | .zoneAdd _ _ => none)

/-- Spec-side (claim C10): every `zoneAdd` in the stream names a zone
for which a `zoneCreate` occurred earlier; `created` accumulates the
zones created so far. -/
def streamWF : List ZoneCmd → List (List Char) → Prop
  | [], _ => True
  | .zoneCreate z _ :: rest, created => streamWF rest (z :: created)
  | .zoneAdd z _ :: rest, created => z ∈ created ∧ streamWF rest created

/-- Invariant of the zoning loop: the commands emitted so far (both
fabrics together, in emission order) only add to already-created
zones, and the remembered triple's zone has already been created. -/
def planInv (st : ZoneState) : Prop :=
  streamWF (st.events.map Prod.snd) [] ∧
  ∀ n p t, st.lastIni = some (n, p, t) →
    zonName n p t ∈ createsOf (st.events.map Prod.snd)

/-!
General lemmas about the Python string order.
-/

lemma strLt_irrefl (a : List Char) : strLt a a = false := by
  induction a with
  | nil => rfl
  | cons x xs ih => simp [strLt, ih]

lemma strLt_ne {a b : List Char} (h : strLt a b = true) : a ≠ b := by
  intro he
  subst he
  simp [strLt_irrefl] at h

lemma strLt_asymm {a b : List Char} (h : strLt a b = true) : strLt b a = false := by
  induction a generalizing b with
  | nil =>
    cases b with
    | nil => simp [strLt] at h
    | cons y ys => simp [strLt]
  | cons x xs ih =>
    cases b with
    | nil => simp [strLt] at h
    | cons y ys =>
      by_cases hxy : x < y
      · have hnyx : ¬ y < x := lt_asymm hxy
        simp [strLt, hnyx, hxy]
      · by_cases hyx : y < x
        · simp [strLt, hxy, hyx] at h
        · have hxe : x = y := le_antisymm (not_lt.mp hyx) (not_lt.mp hxy)
          subst hxe
          simp [strLt, hxy] at h ⊢
          exact ih h

lemma strLt_total (a b : List Char) :
    strLt a b = true ∨ strLt b a = true ∨ a = b := by
  induction a generalizing b with
  | nil =>
    cases b with
    | nil => right; right; rfl
    | cons y ys => left; rfl
  | cons x xs ih =>
    cases b with
    | nil => right; left; rfl
    | cons y ys =>
      rcases lt_trichotomy x y with hxy | hxy | hxy
      · left; simp [strLt, hxy]
      · subst hxy
        rcases ih ys with h | h | h
        · left; simp [strLt, h]
        · right; left; simp [strLt, h]
        · right; right; rw [h]
      · right; left; simp [strLt, hxy, lt_asymm hxy]

lemma strLt_append {a c : List Char} (b d : List Char) (h : a.length = c.length) :
    strLt (a ++ b) (c ++ d) = (strLt a c || (decide (a = c) && strLt b d)) := by
  induction a generalizing c with
  | nil =>
    cases c with
    | nil => simp [strLt]
    | cons y ys => simp at h
  | cons x xs ih =>
    cases c with
    | nil => simp at h
    | cons y ys =>
      simp only [List.length_cons, Nat.add_right_cancel_iff] at h
      by_cases hxy : x < y
      · simp [strLt, hxy]
      · by_cases hyx : y < x
        · simp [strLt, hxy, hyx, ne_of_gt hyx]
        · have hxe : x = y := le_antisymm (not_lt.mp hyx) (not_lt.mp hxy)
          subst hxe
          by_cases hxs : xs = ys
          · subst hxs
            simp [strLt, hxy, strLt_irrefl, ih (rfl : xs.length = xs.length)]
          · simp [strLt, hxy, hxs, ih h]

lemma strLe_append_iff {a c : List Char} (b d : List Char) (h : a.length = c.length) :
    strLe (a ++ b) (c ++ d) = true ↔
      (strLt a c = true ∨ (a = c ∧ strLe b d = true)) := by
  unfold strLe
  rw [strLt_append d b h.symm]
  rcases strLt_total a c with hac | hca | hae
  · have h1 : strLt c a = false := strLt_asymm hac
    have h2 : c ≠ a := fun he => strLt_ne hac (Eq.symm he)
    simp [h1, h2, hac]
  · have h2 : a ≠ c := fun he => strLt_ne hca (Eq.symm he)
    have h3 : strLt a c = false := strLt_asymm hca
    simp [hca, h2, h3, Ne.symm h2]
  · subst hae
    simp [strLt_irrefl]

/-- Claim C9, counterexample.  The implemented sort keys are string
concatenations, and concatenation order differs from component-wise
tuple order: for node "a", primaryInterface "z" versus node "ab",
primaryInterface "a", the concatenated keys give "az" > "aba" while
the tuple order puts ("a","z") before ("ab","a"). -/
theorem sort_key_not_tuple_order :
    ¬ (strLe (sort_ALIif ⟨lc (r"a"), lc (r"z"), [], [], [], []⟩)
             (sort_ALIif ⟨lc (r"ab"), lc (r"a"), [], [], [], []⟩) = true ↔
       tupLe3 ⟨lc (r"a"), lc (r"z"), [], [], [], []⟩
              ⟨lc (r"ab"), lc (r"a"), [], [], [], []⟩) := by
  decide

/-- Claim C9, amended.  The alias-ordering key orders records by the
concatenated string node ++ primaryInterface ++ secondaryInterface and
the pre-zoning key by role ++ node ++ primaryInterface ++
secondaryInterface; on records whose role, node and primaryInterface
fields have pairwise equal lengths these concatenation orders coincide
exactly with the component-wise tuple orders. -/
theorem sort_key_tuple_order_same_widths (r1 r2 : Row)
    (hn : r1.node.length = r2.node.length)
    (hp : r1.primaryif.length = r2.primaryif.length)
    (hr : r1.initgt.length = r2.initgt.length) :
    (strLe (sort_ALIif r1) (sort_ALIif r2) = true ↔ tupLe3 r1 r2) ∧
    (strLe (sort_ITif r1) (sort_ITif r2) = true ↔ tupLe4 r1 r2) := by
  constructor
  · show strLe (r1.node ++ r1.primaryif ++ r1.subif)
        (r2.node ++ r2.primaryif ++ r2.subif) = true ↔ _
    rw [List.append_assoc, List.append_assoc,
      strLe_append_iff _ _ hn, strLe_append_iff _ _ hp]
  · show strLe (r1.initgt ++ r1.node ++ r1.primaryif ++ r1.subif)
        (r2.initgt ++ r2.node ++ r2.primaryif ++ r2.subif) = true ↔ _
    rw [List.append_assoc, List.append_assoc, List.append_assoc, List.append_assoc,
      strLe_append_iff _ _ hr, strLe_append_iff _ _ hn, strLe_append_iff _ _ hp]

/-- Witness for the amended C9 theorem at concrete equal-width
records. -/
theorem sort_key_tuple_order_same_widths_witness :
    (strLe (sort_ALIif ⟨lc (r"aa"), lc (r"p1"), lc (r"s"), lc (r"A"), lc (r"I"), []⟩)
           (sort_ALIif ⟨lc (r"ab"), lc (r"p0"), lc (r"t"), lc (r"B"), lc (r"T"), []⟩) = true ↔
       tupLe3 ⟨lc (r"aa"), lc (r"p1"), lc (r"s"), lc (r"A"), lc (r"I"), []⟩
              ⟨lc (r"ab"), lc (r"p0"), lc (r"t"), lc (r"B"), lc (r"T"), []⟩) ∧
    (strLe (sort_ITif ⟨lc (r"aa"), lc (r"p1"), lc (r"s"), lc (r"A"), lc (r"I"), []⟩)
           (sort_ITif ⟨lc (r"ab"), lc (r"p0"), lc (r"t"), lc (r"B"), lc (r"T"), []⟩) = true ↔
       tupLe4 ⟨lc (r"aa"), lc (r"p1"), lc (r"s"), lc (r"A"), lc (r"I"), []⟩
              ⟨lc (r"ab"), lc (r"p0"), lc (r"t"), lc (r"B"), lc (r"T"), []⟩) :=
  sort_key_tuple_order_same_widths _ _ (by decide) (by decide) (by decide)

lemma length_eq_16_explode {h : List Char} (hl : h.length = 16) :
    ∃ c0 c1 c2 c3 c4 c5 c6 c7 c8 c9 c10 c11 c12 c13 c14 c15,
      h = [c0, c1, c2, c3, c4, c5, c6, c7, c8, c9, c10, c11, c12, c13, c14, c15] := by
  obtain _ | ⟨c0, h⟩ := h; · simp at hl
  obtain _ | ⟨c1, h⟩ := h; · simp at hl
  obtain _ | ⟨c2, h⟩ := h; · simp at hl
  obtain _ | ⟨c3, h⟩ := h; · simp at hl
  obtain _ | ⟨c4, h⟩ := h; · simp at hl
  obtain _ | ⟨c5, h⟩ := h; · simp at hl
  obtain _ | ⟨c6, h⟩ := h; · simp at hl
  obtain _ | ⟨c7, h⟩ := h; · simp at hl
  obtain _ | ⟨c8, h⟩ := h; · simp at hl
  obtain _ | ⟨c9, h⟩ := h; · simp at hl
  obtain _ | ⟨c10, h⟩ := h; · simp at hl
  obtain _ | ⟨c11, h⟩ := h; · simp at hl
  obtain _ | ⟨c12, h⟩ := h; · simp at hl
  obtain _ | ⟨c13, h⟩ := h; · simp at hl
  obtain _ | ⟨c14, h⟩ := h; · simp at hl
  obtain _ | ⟨c15, h⟩ := h; · simp at hl
  obtain _ | ⟨c16, h⟩ := h
  · exact ⟨c0, c1, c2, c3, c4, c5, c6, c7, c8, c9, c10, c11, c12, c13, c14, c15, rfl⟩
  · simp at hl

/-- Claim C4, code bug.  A 23-character string with a colon at
position 2 but none of the other six expected separator positions is
accepted unchanged by `strictwwid`, because the source chains the
seven separator comparisons with `and` instead of `or`: the claim
(and the source's own comment "Colon separators must be in the correct
place") require an InvalidIdentifier for separator placement here. -/
theorem strict_misplaced_separator_accepted :
    strictwwid (lc (r"00:00000000000000000000")) =
      .ok (lc (r"00:00000000000000000000")) := by
  rfl

/-- Claim C5, counterexample.  A 23-character string with colons at
exactly the seven fixed positions and the uppercase hex digit A
everywhere else is rejected by `strictwwid` (its hex test accepts only
0-9 and lowercase a-f), while the claim asserts strict normalization
succeeds on hex digits of either case. -/
theorem strict_rejects_uppercase :
    strictwwid (lc (r"AA:AA:AA:AA:AA:AA:AA:AA")) = .error .badHex := by
  rfl

/-- Claim C5, amended.  For every 23-character string with colons at
the seven fixed positions and a lowercase hex digit at every other
position — equivalently, the Brocade rendering of any 16 characters
accepted by the strict hex test — `strictwwid` succeeds and returns
the input unchanged.  In particular canonical identifiers (which are
lowercase) round-trip.  Uppercase hex digits are rejected by the
strict hex test (the program lowercases identifiers on reading, so
uppercase input reaches `strictwwid` only lowercased). -/
theorem strict_accepts_canonical (h : List Char) (hl : h.length = 16)
    (hhex : ∀ c ∈ h, strictHexOk c = true) :
    strictwwid (brocadefmt h) = .ok (brocadefmt h) := by
  obtain ⟨c0, c1, c2, c3, c4, c5, c6, c7, c8, c9, c10, c11, c12, c13, c14, c15, rfl⟩ :=
    length_eq_16_explode hl
  have hall : ([c0, c1, c2, c3, c4, c5, c6, c7, c8, c9, c10, c11, c12, c13, c14,
      c15].all strictHexOk) = true := List.all_eq_true.mpr hhex
  simp only [brocadefmt, slice, List.drop, List.take, List.append_nil, List.cons_append,
    List.nil_append]
  simp [strictwwid, slice, hall]

/-- Witness for the amended C5 theorem at a concrete canonical
identifier. -/
theorem strict_accepts_canonical_witness :
    strictwwid (brocadefmt (lc (r"0123456789abcdef"))) =
      .ok (brocadefmt (lc (r"0123456789abcdef"))) :=
  strict_accepts_canonical (lc (r"0123456789abcdef")) (by decide) (by decide)

lemma specHexSeq_eq (w : List Char) :
    (w.map Char.toLower).filter looseHexOk = specHexSeq w := by
  induction w with
  | nil => rfl
  | cons x xs ih =>
    simp only [List.map_cons, List.filter_cons, specHexSeq, List.filterMap_cons]
    by_cases hx : looseHexOk x.toLower
    · simp only [hx, if_true, if_pos]
      rw [ih]
      rfl
    · simp only [hx, Bool.false_eq_true, if_false, if_neg]
      rw [ih]
      rfl

lemma brocadefmt_eq_specPairs {h : List Char} (hl : h.length = 16) :
    brocadefmt h = specPairs h := by
  obtain ⟨c0, c1, c2, c3, c4, c5, c6, c7, c8, c9, c10, c11, c12, c13, c14, c15, rfl⟩ :=
    length_eq_16_explode hl
  rfl

/-- Claim C6.  Loose normalization succeeds exactly when the input
contains 16 hex characters (case-folded, counting 0-9 and a-f,
ignoring everything else), returning those digits in original order
re-punctuated into colon-separated byte pairs, and fails with the
length error otherwise — `specHexSeq` and `specPairs` are the
spec-side extraction and rendering. -/
theorem loose_normalization_spec (w : List Char) :
    loosewwid w =
      if (specHexSeq w).length = 16 then .ok (specPairs (specHexSeq w))
      else .error .badLength := by
  have hs := specHexSeq_eq w
  by_cases h16 : (specHexSeq w).length = 16
  · simp [loosewwid, hs, h16, brocadefmt_eq_specPairs h16]
  · simp [loosewwid, hs, h16]

/-- Claim C1.  Any non-empty validation error set — in particular a
fabric-alternation warning when the check is enabled — makes the run
exit with status 1 and write none of the output files; an empty error
set makes it exit 0 with all six files written. -/
theorem all_or_nothing_gate (cfg : Config) (rows : List Row) :
    (validationErrors cfg rows ≠ [] → run cfg rows = ⟨1, none⟩) ∧
    (validationErrors cfg rows = [] →
      (run cfg rows).exitCode = 0 ∧ (run cfg rows).files ≠ none) ∧
    (cfg.cabchk = true → cableErrors (afterCabSort rows) ≠ [] →
      run cfg rows = ⟨1, none⟩) := by
  have hgate : validationErrors cfg rows ≠ [] → run cfg rows = ⟨1, none⟩ := by
    intro h
    simp [run, h]
  refine ⟨hgate, ?_, ?_⟩
  · intro h
    simp [run, h]
  · intro hc h
    apply hgate
    simp only [validationErrors, hc, dupname_error, Bool.not_false, Bool.and_self, if_true]
    intro he
    exact h (List.append_eq_nil.mp he).2

/-- Witness for the C1 theorem: a strict-mode row with a malformed
identifier aborts with no files; the empty record set emits with exit
0; two same-fabric rows with the alternation check enabled abort. -/
theorem all_or_nothing_gate_witness :
    run ⟨true, false⟩ [⟨lc (r"n"), lc (r"p"), [], lc (r"A"), lc (r"I"), lc (r"bad")⟩] =
        ⟨1, none⟩ ∧
    ((run ⟨true, false⟩ []).exitCode = 0 ∧ (run ⟨true, false⟩ []).files ≠ none) ∧
    run ⟨true, true⟩
        [⟨lc (r"n1"), lc (r"p1"), [], lc (r"A"), lc (r"I"),
            lc (r"10:00:00:00:00:00:00:01")⟩,
         ⟨lc (r"n2"), lc (r"p2"), [], lc (r"A"), lc (r"T"),
            lc (r"10:00:00:00:00:00:00:02")⟩] = ⟨1, none⟩ :=
  ⟨(all_or_nothing_gate _ _).1 (by decide),
   (all_or_nothing_gate _ _).2.1 (by decide),
   (all_or_nothing_gate _ _).2.2 rfl (by decide)⟩

/-- Claim C7, counterexample.  A row whose identifier fails loose
normalization is not excluded from the record list: two rows sharing
the invalid identifier "zz" each fail the per-row check, yet the
cross-record duplicate-identifier scan still sees both and reports a
duplicate for them. -/
theorem invalid_rows_reach_cross_checks :
    rowError false ⟨lc (r"na"), lc (r"p1"), [], lc (r"A"), lc (r"I"), lc (r"zz")⟩ =
      some (.invalidIdentifier (lc (r"zz")) .badLength) ∧
    ValidationError.duplicateIdentifier (lc (r"zz")) ∈
      validationErrors ⟨false, false⟩
        [⟨lc (r"na"), lc (r"p1"), [], lc (r"A"), lc (r"I"), lc (r"zz")⟩,
         ⟨lc (r"nb"), lc (r"p2"), [], lc (r"A"), lc (r"T"), lc (r"zz")⟩] := by
  refine ⟨by rfl, ?_⟩
  decide

/-- Claim C7, amended.  Rows failing a per-row check contribute their
error and processing of the remaining rows continues, but no row is
removed from the list the cross-record checks scan; the alias emitter
and zoning planner are nevertheless only reached when the error set is
empty, so whenever output files are produced every processed row had
passed every per-row check. -/
theorem emission_only_with_all_rows_valid (cfg : Config) (rows : List Row)
    (h : (run cfg rows).files ≠ none) :
    ∀ r ∈ rows, rowError cfg.strict r = none := by
  intro r hr
  by_cases he : validationErrors cfg rows = []
  · have hp : rows.filterMap (rowError cfg.strict) = [] := by
      simp only [validationErrors, List.append_eq_nil] at he
      exact he.1.1.1
    exact (List.filterMap_eq_nil_iff.mp hp) r hr
  · exfalso
    apply h
    simp [run, he]

/-- Witness for the amended C7 theorem: a valid single-row run emits
files, and the theorem yields that the row passed its per-row check. -/
theorem emission_only_with_all_rows_valid_witness :
    rowError true
      ⟨lc (r"n1"), lc (r"p1"), [], lc (r"A"), lc (r"I"),
        lc (r"10:00:00:00:00:00:00:01")⟩ = none :=
  emission_only_with_all_rows_valid ⟨true, false⟩
    [⟨lc (r"n1"), lc (r"p1"), [], lc (r"A"), lc (r"I"),
        lc (r"10:00:00:00:00:00:00:01")⟩] (by decide) _ (by simp)

/-- Claim C3, code bug.  Two rows with identical (node, primaryif,
subif) names on the same fabric side with the alternation check
enabled: the duplicate-name scan reports its error, yet the
alternation scan still runs and reports a warning, because the
duplicate-name loop assigns the misspelled variable `dupnam_error`
(line 383) while the alternation gate reads `dupname_error` — the
source's own comment (lines 389-391) and the claim say the alternation
check must be skipped after a duplicate-name error. -/
theorem dupname_error_does_not_suppress_alternation :
    ((validationErrors ⟨true, true⟩
        [⟨lc (r"n1"), lc (r"p1"), [], lc (r"A"), lc (r"I"),
            lc (r"10:00:00:00:00:00:00:01")⟩,
         ⟨lc (r"n1"), lc (r"p1"), [], lc (r"A"), lc (r"T"),
            lc (r"10:00:00:00:00:00:00:02")⟩]).any fun e =>
        match e with | .duplicateName _ _ _ => true | _ => false) = true ∧
    ((validationErrors ⟨true, true⟩
        [⟨lc (r"n1"), lc (r"p1"), [], lc (r"A"), lc (r"I"),
            lc (r"10:00:00:00:00:00:00:01")⟩,
         ⟨lc (r"n1"), lc (r"p1"), [], lc (r"A"), lc (r"T"),
            lc (r"10:00:00:00:00:00:00:02")⟩]).any fun e =>
        match e with | .fabricAlternationWarning _ _ => true | _ => false) = true := by
  refine ⟨by rfl, by rfl⟩

/-- Claim C2, code bug.  Under the loose policy a row's identifier
normalizes to the canonical colon-paired form, but the source never
stores the normalized value back into the record (`wwpn = wwidok` at
line 318 rebinds a local): the emitted aliCreate command carries the
raw identifier, and the duplicate-identifier scan compares raw
strings, so two spellings of the same identifier produce no
`DuplicateIdentifier` error and the run emits output.  The program's
own help text says loose mode "will convert embedded hex characters
into Brocade format". -/
theorem loose_normalization_not_stored :
    loosewwid (lc (r"0011223344556677")) = .ok (lc (r"00:11:22:33:44:55:66:77")) ∧
    validationErrors ⟨false, false⟩
      [⟨lc (r"n1"), lc (r"p1"), [], lc (r"A"), lc (r"I"), lc (r"0011223344556677")⟩,
       ⟨lc (r"n2"), lc (r"p2"), [], lc (r"A"), lc (r"T"),
          lc (r"00:11:22:33:44:55:66:77")⟩] = [] ∧
    ((run ⟨false, false⟩
      [⟨lc (r"n1"), lc (r"p1"), [], lc (r"A"), lc (r"I"), lc (r"0011223344556677")⟩,
       ⟨lc (r"n2"), lc (r"p2"), [], lc (r"A"), lc (r"T"),
          lc (r"00:11:22:33:44:55:66:77")⟩]).files.map Files.afabali) =
      some [⟨lc (r"ali_n1_p1_FA"), lc (r"0011223344556677")⟩,
            ⟨lc (r"ali_n2_p2_FA"), lc (r"00:11:22:33:44:55:66:77")⟩] := by
  refine ⟨by rfl, by decide, by decide⟩

/-- Claim C8.  For one initiator on fabric A and a sorted target list
holding two fabric-A targets T1 before T2 and one fabric-B target T3
in any position, fabric A's zone plan is exactly one zoneCreate for
the zone named from (initiator node, initiator primary interface,
T1.node) followed by zoneAdds for T1 then T2 when T1 and T2 share a
node name — with a second zoneCreate for T2's zone when they do not —
and fabric B's plan is empty, so no command refers to T3. -/
theorem fabricA_plan_one_initiator_two_targets
    (i1 t1 t2 t3 : Row) (tgts : List Row)
    (hfi : i1.fabric = lc (r"A"))
    (hf1 : t1.fabric = lc (r"A"))
    (hf2 : t2.fabric = lc (r"A"))
    (hf3 : t3.fabric = lc (r"B"))
    (harr : tgts = [t1, t2, t3] ∨ tgts = [t1, t3, t2] ∨ tgts = [t3, t1, t2]) :
    (t1.node = t2.node →
      aStream (zonePlan [i1] tgts).events =
        [.zoneCreate (zonName i1.node i1.primaryif t1.node) (alias_format i1),
         .zoneAdd (zonName i1.node i1.primaryif t1.node) (alias_format t1),
         .zoneAdd (zonName i1.node i1.primaryif t1.node) (alias_format t2)]) ∧
    (t1.node ≠ t2.node →
      aStream (zonePlan [i1] tgts).events =
        [.zoneCreate (zonName i1.node i1.primaryif t1.node) (alias_format i1),
         .zoneAdd (zonName i1.node i1.primaryif t1.node) (alias_format t1),
         .zoneCreate (zonName i1.node i1.primaryif t2.node) (alias_format i1),
         .zoneAdd (zonName i1.node i1.primaryif t2.node) (alias_format t2)]) ∧
    bStream (zonePlan [i1] tgts).events = [] := by
  have hABne : lc (r"A") ≠ lc (r"B") := by decide
  have hdA : (decide (lc (r"A") = lc (r"A"))) = true := by decide
  rcases harr with rfl | rfl | rfl
  · refine ⟨fun heq => ?_, fun hne => ?_, ?_⟩
    · simp [zonePlan, zonePairs, zoneStep, initZoneState, aStream,
        hfi, hf1, hf2, hf3, hABne, hdA, heq]
    · simp [zonePlan, zonePairs, zoneStep, initZoneState, aStream,
        hfi, hf1, hf2, hf3, hABne, hdA, hne]
    · by_cases hn : t1.node = t2.node
      · simp [zonePlan, zonePairs, zoneStep, initZoneState, bStream,
          hfi, hf1, hf2, hf3, hABne, hdA, hn]
      · simp [zonePlan, zonePairs, zoneStep, initZoneState, bStream,
          hfi, hf1, hf2, hf3, hABne, hdA, hn]
  · refine ⟨fun heq => ?_, fun hne => ?_, ?_⟩
    · simp [zonePlan, zonePairs, zoneStep, initZoneState, aStream,
        hfi, hf1, hf2, hf3, hABne, hdA, heq]
    · simp [zonePlan, zonePairs, zoneStep, initZoneState, aStream,
        hfi, hf1, hf2, hf3, hABne, hdA, hne]
    · by_cases hn : t1.node = t2.node
      · simp [zonePlan, zonePairs, zoneStep, initZoneState, bStream,
          hfi, hf1, hf2, hf3, hABne, hdA, hn]
      · simp [zonePlan, zonePairs, zoneStep, initZoneState, bStream,
          hfi, hf1, hf2, hf3, hABne, hdA, hn]
  · refine ⟨fun heq => ?_, fun hne => ?_, ?_⟩
    · simp [zonePlan, zonePairs, zoneStep, initZoneState, aStream,
        hfi, hf1, hf2, hf3, hABne, hdA, heq]
    · simp [zonePlan, zonePairs, zoneStep, initZoneState, aStream,
        hfi, hf1, hf2, hf3, hABne, hdA, hne]
    · by_cases hn : t1.node = t2.node
      · simp [zonePlan, zonePairs, zoneStep, initZoneState, bStream,
          hfi, hf1, hf2, hf3, hABne, hdA, hn]
      · simp [zonePlan, zonePairs, zoneStep, initZoneState, bStream,
          hfi, hf1, hf2, hf3, hABne, hdA, hn]

/-- Witness for the C8 theorem at concrete rows whose two fabric-A
targets share the node name t1. -/
theorem fabricA_plan_one_initiator_two_targets_witness :
    aStream (zonePlan
        [⟨lc (r"n1"), lc (r"p1"), [], lc (r"A"), lc (r"I"), lc (r"w1")⟩]
        [⟨lc (r"t1"), lc (r"q1"), [], lc (r"A"), lc (r"T"), lc (r"w2")⟩,
         ⟨lc (r"t1"), lc (r"q2"), [], lc (r"A"), lc (r"T"), lc (r"w3")⟩,
         ⟨lc (r"t2"), lc (r"q3"), [], lc (r"B"), lc (r"T"), lc (r"w4")⟩]).events =
      [.zoneCreate (zonName (lc (r"n1")) (lc (r"p1")) (lc (r"t1")))
          (alias_format ⟨lc (r"n1"), lc (r"p1"), [], lc (r"A"), lc (r"I"), lc (r"w1")⟩),
       .zoneAdd (zonName (lc (r"n1")) (lc (r"p1")) (lc (r"t1")))
          (alias_format ⟨lc (r"t1"), lc (r"q1"), [], lc (r"A"), lc (r"T"), lc (r"w2")⟩),
       .zoneAdd (zonName (lc (r"n1")) (lc (r"p1")) (lc (r"t1")))
          (alias_format ⟨lc (r"t1"), lc (r"q2"), [], lc (r"A"), lc (r"T"), lc (r"w3")⟩)] :=
  (fabricA_plan_one_initiator_two_targets _ _ _ _ _ rfl rfl rfl rfl (Or.inl rfl)).1 rfl

lemma createsOf_append (l1 l2 : List ZoneCmd) :
    createsOf (l1 ++ l2) = createsOf l1 ++ createsOf l2 := by
  simp [createsOf]

lemma streamWF_mono {l : List ZoneCmd} :
    ∀ {c c' : List (List Char)}, (∀ z, z ∈ c → z ∈ c') → streamWF l c → streamWF l c' := by
  induction l with
  | nil =>
    intro c c' _ _
    trivial
  | cons e rest ih =>
    intro c c' hsub h
    cases e with
    | zoneCreate z a =>
      simp only [streamWF] at h ⊢
      refine ih ?_ h
      intro w hw
      rcases List.mem_cons.mp hw with rfl | hw
      · exact List.mem_cons_self _ _
      · exact List.mem_cons_of_mem _ (hsub w hw)
    | zoneAdd z a =>
      simp only [streamWF] at h ⊢
      exact ⟨hsub z h.1, ih hsub h.2⟩

lemma streamWF_append {l1 l2 : List ZoneCmd} :
    ∀ {c : List (List Char)}, streamWF l1 c → streamWF l2 (createsOf l1 ++ c) →
      streamWF (l1 ++ l2) c := by
  induction l1 with
  | nil =>
    intro c _ h2
    simpa [createsOf] using h2
  | cons e rest ih =>
    intro c h1 h2
    cases e with
    | zoneCreate z a =>
      simp only [streamWF, List.cons_append] at h1 ⊢
      apply ih h1
      have h2' : streamWF l2 ((z :: createsOf rest) ++ c) := by
        simpa [createsOf] using h2
      refine streamWF_mono ?_ h2'
      intro w hw
      simp only [List.mem_append, List.mem_cons] at hw ⊢
      tauto
    | zoneAdd z a =>
      simp only [streamWF, List.cons_append] at h1 ⊢
      refine ⟨h1.1, ih h1.2 ?_⟩
      simpa [createsOf] using h2

lemma zoneStep_inv {st : ZoneState} (p : Row × Row) (h : planInv st) :
    planInv (zoneStep st p) := by
  unfold zoneStep
  by_cases hf : p.1.fabric = p.2.fabric
  · rw [if_neg (by simp [hf])]
    by_cases hl : st.lastIni = some (p.1.node, p.1.primaryif, p.2.node)
    · rw [if_pos hl]
      constructor
      · simp only [List.map_append, List.map_cons, List.map_nil]
        refine streamWF_append h.1 ?_
        simp only [streamWF, List.append_nil]
        exact ⟨h.2 _ _ _ hl, trivial⟩
      · intro n pp t hEq
        simp only [Option.some.injEq, Prod.mk.injEq] at hEq
        obtain ⟨rfl, rfl, rfl⟩ := hEq
        simp only [List.map_append, List.map_cons, List.map_nil, createsOf_append,
          List.mem_append]
        left
        exact h.2 _ _ _ hl
    · rw [if_neg hl]
      by_cases hA : p.1.fabric = lc (r"A")
      · rw [if_pos hA]
        constructor
        · simp only [List.map_append, List.map_cons, List.map_nil]
          refine streamWF_append h.1 ?_
          simp only [streamWF, List.append_nil]
          exact ⟨List.mem_cons_self _ _, trivial⟩
        · intro n pp t hEq
          simp only [Option.some.injEq, Prod.mk.injEq] at hEq
          obtain ⟨rfl, rfl, rfl⟩ := hEq
          simp only [List.map_append, List.map_cons, List.map_nil, createsOf_append,
            List.mem_append]
          right
          simp [createsOf]
      · rw [if_neg hA]
        constructor
        · simp only [List.map_append, List.map_cons, List.map_nil]
          refine streamWF_append h.1 ?_
          simp only [streamWF, List.append_nil]
          exact ⟨List.mem_cons_self _ _, trivial⟩
        · intro n pp t hEq
          simp only [Option.some.injEq, Prod.mk.injEq] at hEq
          obtain ⟨rfl, rfl, rfl⟩ := hEq
          simp only [List.map_append, List.map_cons, List.map_nil, createsOf_append,
            List.mem_append]
          right
          simp [createsOf]
  · rw [if_pos hf]
    exact h

lemma foldl_planInv (pairs : List (Row × Row)) :
    ∀ st, planInv st → planInv (pairs.foldl zoneStep st) := by
  induction pairs with
  | nil =>
    intro st h
    exact h
  | cons p rest ih =>
    intro st h
    exact ih _ (zoneStep_inv p h)

/-- Claim C10, counterexample.  The `last_ininode`/`last_iniprime`/
`last_tgtnode` comparison state is shared across fabrics: with a
fabric-A initiator/target pair processed first and a fabric-B pair
whose initiator shares node and primary interface (differing only in
the secondary interface) and whose target shares the node, the B pair
matches the remembered triple and is emitted as a bare zoneAdd, so
fabric B's stream contains a zoneAdd for a zone never created in that
stream — the run is fully validated and exits 0. -/
theorem zoneAdd_without_create_in_own_fabric :
    ((run ⟨true, false⟩
        [⟨lc (r"n1"), lc (r"p1"), lc (r"x"), lc (r"A"), lc (r"I"),
            lc (r"10:00:00:00:00:00:00:01")⟩,
         ⟨lc (r"t1"), lc (r"q1"), [], lc (r"A"), lc (r"T"),
            lc (r"10:00:00:00:00:00:00:02")⟩,
         ⟨lc (r"n1"), lc (r"p1"), lc (r"y"), lc (r"B"), lc (r"I"),
            lc (r"10:00:00:00:00:00:00:03")⟩,
         ⟨lc (r"t1"), lc (r"q2"), [], lc (r"B"), lc (r"T"),
            lc (r"10:00:00:00:00:00:00:04")⟩]).files.map Files.bfabzon) =
      some [ZoneCmd.zoneAdd (lc (r"zon_n1_p1_t1")) (lc (r"ali_t1_q2_FB"))] ∧
    ¬ streamWF [ZoneCmd.zoneAdd (lc (r"zon_n1_p1_t1")) (lc (r"ali_t1_q2_FB"))] [] := by
  refine ⟨by decide, ?_⟩
  simp [streamWF]

/-- Claim C10, amended.  Every `zoneAdd` emitted by the zoning loop
names a zone for which a `zoneCreate` was emitted earlier in the run's
combined command sequence — though possibly in the other fabric's
stream, since the remembered triple is shared between fabrics. -/
theorem zoneAdd_preceded_by_create_globally (ini tgt : List Row) :
    streamWF ((zonePlan ini tgt).events.map Prod.snd) [] := by
  have h : planInv (zonePlan ini tgt) := by
    refine foldl_planInv _ _ ⟨?_, ?_⟩
    · simp only [initZoneState, List.map_nil]
      trivial
    · intro n pp t hEq
      simp [initZoneState] at hEq
  exact h.1

end Bfabric
